import Mathlib

/-!
# mongoDBServer: the request handlers of `server.js`

A shallow embedding of the nine routes registered in `server.js` and of the
part of their collaborators that the routes rely on.

* The two collections are lists of documents, in insertion order.
* A request is handled in one step: `handle` maps the database and a request
  to the database after the request, the argument of `res.send` (when it is
  called), the exception that escapes a callback (when one does) and the
  write operations issued to the store.
* Values that `server.js` does not compute itself are parameters: the
  string-to-number conversion behind `==`, the two bcrypt functions, the
  validators of the two Mongoose models (`Ctx`), and the values drawn afresh
  by each request, the new ObjectId and the bcrypt salt (`Env`).
* The callback API is the one of Mongoose 5: a lookup that matches nothing
  calls back with `(null, null)`, a lookup whose id cannot be cast calls back
  with an error and no document, and `.catch` on a query fires only when the
  query itself fails. A callback runs before the `.catch` handler, so when the
  callback throws, nothing is sent.
* The password hashing utility is a parameter of the handlers. Its round trip,
  which the spec states and `server.js` relies on, is modelled from the spec
  in `HashingUtility`.
-/

namespace MongoDBServer

/-! ## Values -/

/-- A scalar as it arrives in a JSON body or sits in a stored field.
`nullish` stands for both `null` and `undefined` (a field that is absent):
`==` does not tell the two apart, a stored field that is absent and one that
is null both read back as a nullish value, and bcrypt rejects both.
Numbers are the integral ones. Objects and arrays are outside the model. -/
inductive JSVal where
  | nullish
  | bool (b : Bool)
  | num (n : Int)
  | str (s : String)
  deriving DecidableEq, Repr

/-- ToNumber on a boolean: `true` is 1 and `false` is 0. -/
def boolToNumber (b : Bool) : Int := if b then 1 else 0

/-- The `==` of JavaScript on scalars (abstract equality comparison):
same type compares by value, `null == undefined`, a number and a string
compare after the string is converted to a number, a boolean is converted to
a number first, everything else is unequal. `toNum` is the string-to-number
conversion; `none` is a result no integer equals (NaN, a fraction). -/
def looseEq (toNum : String → Option Int) : JSVal → JSVal → Bool
  | .nullish, .nullish => true
  | .bool a, .bool b => a == b
  | .num a, .num b => a == b
  | .str a, .str b => a == b
  | .num a, .str s => toNum s == some a
  | .str s, .num a => toNum s == some a
  | .bool a, .num b => boolToNumber a == b
  | .num a, .bool b => a == boolToNumber b
  | .bool a, .str s => toNum s == some (boolToNumber a)
  | .str s, .bool b => toNum s == some (boolToNumber b)
  | _, _ => false

/-! ## Documents and the database -/

/-- An ObjectId, as generated by `new mongoose.Types.ObjectId()`. -/
abbrev ObjectId := Nat

/-- Modelled from the spec: the Product model of `models/products`, which is
not among the sources. The spec lists the fields `id`, `name`, `price` and
`owner_id`; `server.js` names them `_id`, `name`, `price` and `user_id`. A
field holds the value the constructor was given. -/
structure Product where
  _id : ObjectId
  name : JSVal
  price : JSVal
  user_id : JSVal
  deriving DecidableEq, Repr

/-- Modelled from the spec: the User model of `models/users`, which is not
among the sources. The only writer of `password` is the register route, which
stores the string returned by `bcrypt.hashSync`. -/
structure User where
  _id : ObjectId
  username : JSVal
  email : JSVal
  password : String
  deriving DecidableEq, Repr

/-- The two collections of the `shop` database. -/
structure Db where
  products : List Product
  users : List User
  deriving DecidableEq, Repr

/-- The store keeps `_id` unique within a collection. -/
def Db.WF (db : Db) : Prop :=
  (db.products.map (·._id)).Nodup ∧ (db.users.map (·._id)).Nodup

instance (db : Db) : Decidable db.WF := by
  unfold Db.WF; infer_instance

/-! ## Requests and responses -/

/-- The parsed body `req.body`. A field the client left out is `nullish`.
`extra` holds the fields no handler reads. -/
structure Body where
  name : JSVal := .nullish
  price : JSVal := .nullish
  userId : JSVal := .nullish
  username : JSVal := .nullish
  email : JSVal := .nullish
  password : JSVal := .nullish
  extra : List (String × JSVal) := []
  deriving DecidableEq, Repr

/-- The `:id` path segment after Mongoose has cast it to an ObjectId;
`none` when the text is not a well-formed ObjectId. -/
abbrev RouteId := Option ObjectId

/-- The registered routes. -/
inductive Request where
  | getHome
  | postProduct (body : Body)
  | getAllProducts
  | getProductById (id : RouteId)
  | postProductById (id : RouteId) (body : Body)
  | patchProductById (id : RouteId) (body : Body)
  | deleteProductById (id : RouteId) (body : Body)
  | postUsers (body : Body)
  | postGetUser (body : Body)
  deriving DecidableEq, Repr

/-- Errors the store reports. -/
inductive DbError where
  | castError
  | validationError
  | duplicateKey
  deriving DecidableEq, Repr

/-- Exceptions thrown inside a callback. -/
inductive JSError where
  /-- Reading a property of `null` or `undefined`. -/
  | typeError
  /-- The error bcrypt throws when an argument is not a string. -/
  | illegalArguments
  deriving DecidableEq, Repr

/-- The result object of `updateOne`: documents matched and modified. -/
structure UpdateResult where
  n : Nat
  nModified : Nat
  deriving DecidableEq, Repr

/-- The argument of `res.send`. -/
inductive Payload where
  | text (s : String)
  /-- The call `res.send(null)`: an empty body with status 200. -/
  | null
  | product (p : Product)
  | products (ps : List Product)
  | user (u : User)
  | updateResult (r : UpdateResult)
  | error (e : DbError)
  deriving DecidableEq, Repr

/-- Whether a payload is an error of the store. -/
def Payload.isError : Payload → Bool
  | .error _ => true
  | _ => false

/-- A write operation issued to the store. -/
inductive WriteOp where
  | insertProduct (p : Product)
  | insertUser (u : User)
  | updateOne (id : ObjectId) (name price : JSVal)
  | deleteOne (id : ObjectId)
  deriving DecidableEq, Repr

/-- What one request leaves behind. -/
structure Outcome where
  db : Db
  sent : Option Payload
  thrown : Option JSError := none
  writes : List WriteOp := []
  deriving DecidableEq, Repr

/-- What `server.js` takes from its collaborators. -/
structure Ctx where
  /-- The string-to-number conversion of the language, used by `==`. -/
  stringToNumber : String → Option Int
  /-- The call `bcrypt.hashSync(password)` with the salt it generated. -/
  hashSync : String → String → String
  /-- The call `bcrypt.compareSync(password, hash)`. -/
  compareSync : String → String → Bool
  /-- Validation of the Product schema, run by `save`. -/
  validProduct : Product → Bool
  /-- Validation of the User schema, run by `save`. -/
  validUser : User → Bool

/-- The values one request draws afresh. -/
structure Env where
  newId : ObjectId
  salt : String
  deriving DecidableEq, Repr

/-! ## The persistence layer -/

/-- The document with `_id = i`, as `findOne({_id: i})` finds it. -/
def lookupProduct (ps : List Product) (i : ObjectId) : Option Product :=
  ps.find? (fun p => p._id == i)

/-- The call `Product.findById(id, callback)`: the two arguments the callback
receives, `err` and `product`. A missing document is not an error. -/
def findById (ps : List Product) : RouteId → Option DbError × Option Product
  | none => (some .castError, none)
  | some i => (none, lookupProduct ps i)

/-- The call `product.save()`: validation first, then the insert, which the
unique index on `_id` can reject. -/
def saveProduct (ctx : Ctx) (ps : List Product) (p : Product) :
    Except DbError (List Product) :=
  if ctx.validProduct p then
    if ps.any (fun q => q._id == p._id) then .error .duplicateKey
    else .ok (ps ++ [p])
  else .error .validationError

/-- Set `name` and `price` of the first document with `_id = i`. -/
def setFirst (i : ObjectId) (name price : JSVal) : List Product → List Product
  | [] => []
  | p :: ps =>
    if p._id = i then { p with name := name, price := price } :: ps
    else p :: setFirst i name price ps

/-- The call `Product.updateOne({_id: id}, {name, price})`. -/
def updateOne (ps : List Product) (id : RouteId) (name price : JSVal) :
    Except DbError (List Product × UpdateResult) :=
  match id with
  | none => .error .castError
  | some i =>
    match lookupProduct ps i with
    | none => .ok (ps, { n := 0, nModified := 0 })
    | some p =>
      .ok (setFirst i name price ps,
        { n := 1, nModified := if p.name = name ∧ p.price = price then 0 else 1 })

/-- Remove the first document with `_id = i`. -/
def deleteFirst (i : ObjectId) : List Product → List Product
  | [] => []
  | p :: ps => if p._id = i then ps else p :: deleteFirst i ps

/-- The call `Product.deleteOne({_id: id}, callback)`: the collection
afterwards; the callback ignores its `err` argument. -/
def deleteOne (ps : List Product) : RouteId → List Product
  | none => ps
  | some i => deleteFirst i ps

/-- The call `User.findOne({username: v}, callback)`: the `checkUser`
argument of the callback. -/
def findOneByUsername (us : List User) (v : JSVal) : Option User :=
  us.find? (fun u => u.username == v)

/-- The call `user.save()`. -/
def saveUser (ctx : Ctx) (us : List User) (u : User) : Except DbError (List User) :=
  if ctx.validUser u then
    if us.any (fun q => q._id == u._id) then .error .duplicateKey
    else .ok (us ++ [u])
  else .error .validationError

/-! ## The handlers -/

/-- A handler that calls `res.send` and changes nothing. -/
def reply (db : Db) (b : Payload) : Outcome := { db := db, sent := some b }

/-- A callback that throws before it sends. -/
def crash (db : Db) (e : JSError) : Outcome :=
  { db := db, sent := none, thrown := some e }

/-- The text of the home route. -/
def welcome : String :=
  "Welcome to our Products API. Use endpoints to filter out the data"

/-- The string the `.catch` of the update and delete routes sends. -/
def cannotFind : String := "cannot find product with that id"

/-- The route `GET /`. -/
def getHome (db : Db) : Outcome := reply db (.text welcome)

/-- The route `POST /product`. -/
def postProduct (ctx : Ctx) (env : Env) (db : Db) (body : Body) : Outcome :=
  let product : Product :=
    { _id := env.newId, name := body.name, price := body.price, user_id := body.userId }
  match saveProduct ctx db.products product with
  | .ok ps =>
    { db := { db with products := ps }, sent := some (.product product),
      writes := [.insertProduct product] }
  | .error .validationError => reply db (.error .validationError)
  | .error err =>
    { db := db, sent := some (.error err), writes := [.insertProduct product] }

/-- The route `GET /allProducts`. -/
def getAllProducts (db : Db) : Outcome := reply db (.products db.products)

/-- The route `GET /product/:id`. -/
def getProductById (db : Db) (id : RouteId) : Outcome :=
  match findById db.products id with
  | (some err, _) => reply db (.error err)
  | (none, some product) => reply db (.product product)
  | (none, none) => reply db .null

/-- The route `POST /product/:id`. The callback reads `product['user_id']`
whatever `err` is, which throws when `product` is null or undefined. -/
def postProductById (ctx : Ctx) (db : Db) (id : RouteId) (body : Body) : Outcome :=
  match findById db.products id with
  | (_, none) => crash db .typeError
  | (_, some product) =>
    if looseEq ctx.stringToNumber product.user_id body.userId then
      reply db (.product product)
    else reply db (.text "401")

/-- The `.catch` chained on the query of the update and delete routes. Its
handler sends the fixed string when the query itself failed. The callback
runs first: when it has thrown, which it does whenever the query failed,
since `product` is then undefined, the exception escapes and nothing is sent. -/
def onQueryError (err : Option DbError) (o : Outcome) : Outcome :=
  match err with
  | none => o
  | some _ =>
    match o.thrown with
    | some _ => o
    | none => { o with sent := some (.text cannotFind) }

/-- The route `PATCH /product/:id`. -/
def patchProductById (ctx : Ctx) (db : Db) (id : RouteId) (body : Body) : Outcome :=
  let (err, found) := findById db.products id
  let callback : Outcome :=
    match found with
    | none => crash db .typeError
    | some product =>
      if looseEq ctx.stringToNumber product.user_id body.userId then
        match updateOne db.products id body.name body.price with
        | .ok (ps, result) =>
          { db := { db with products := ps }, sent := some (.updateResult result),
            writes := [.updateOne product._id body.name body.price] }
        | .error e => reply db (.error e)
      else reply db (.text "401")
  onQueryError err callback

/-- The route `DELETE /product/:id`. -/
def deleteProductById (ctx : Ctx) (db : Db) (id : RouteId) (body : Body) : Outcome :=
  let (err, found) := findById db.products id
  let callback : Outcome :=
    match found with
    | none => crash db .typeError
    | some product =>
      if looseEq ctx.stringToNumber product.user_id body.userId then
        { db := { db with products := deleteOne db.products id },
          sent := some (.text "deleted"), writes := [.deleteOne product._id] }
      else reply db (.text "401")
  onQueryError err callback

/-- The route `POST /users` (register). `bcrypt.hashSync` throws when the
password is not a string. -/
def postUsers (ctx : Ctx) (env : Env) (db : Db) (body : Body) : Outcome :=
  match findOneByUsername db.users body.username with
  | some _ => reply db (.text "user already exists")
  | none =>
    match body.password with
    | .str plain =>
      let hash := ctx.hashSync env.salt plain
      let user : User :=
        { _id := env.newId, username := body.username, email := body.email,
          password := hash }
      match saveUser ctx db.users user with
      | .ok us =>
        { db := { db with users := us }, sent := some (.user user),
          writes := [.insertUser user] }
      | .error .validationError => reply db (.error .validationError)
      | .error err =>
        { db := db, sent := some (.error err), writes := [.insertUser user] }
    | _ => crash db .illegalArguments

/-- The route `POST /getUser` (login). `bcrypt.compareSync` throws when the
password is not a string. -/
def postGetUser (ctx : Ctx) (db : Db) (body : Body) : Outcome :=
  match findOneByUsername db.users body.username with
  | some checkUser =>
    match body.password with
    | .str plain =>
      if ctx.compareSync plain checkUser.password then reply db (.user checkUser)
      else reply db (.text "invalid password")
    | _ => crash db .illegalArguments
  | none => reply db (.text "invalid user")

/-- The router: one request, one handler. -/
def handle (ctx : Ctx) (env : Env) (db : Db) : Request → Outcome
  | .getHome => getHome db
  | .postProduct body => postProduct ctx env db body
  | .getAllProducts => getAllProducts db
  | .getProductById id => getProductById db id
  | .postProductById id body => postProductById ctx db id body
  | .patchProductById id body => patchProductById ctx db id body
  | .deleteProductById id body => deleteProductById ctx db id body
  | .postUsers body => postUsers ctx env db body
  | .postGetUser body => postGetUser ctx db body

/-! ## The password hashing utility -/

/-- Modelled from the spec: the password hashing utility (the `bcryptjs`
module), which is not among the sources. The spec describes it as "one-way
hash + verify functions" and states its round trip: "the password hash stored
for a user is never equal to the plaintext password, and verifying the
original plaintext against the stored hash succeeds". `hashSync` takes the
salt it generated and the plaintext. -/
structure HashingUtility where
  hashSync : String → String → String
  compareSync : String → String → Bool
  hash_ne_plain : ∀ salt plain, hashSync salt plain ≠ plain
  compare_hash : ∀ salt plain, compareSync plain (hashSync salt plain) = true

/-- The context whose two bcrypt functions are those of the utility `h`. -/
def Ctx.withHashing (ctx : Ctx) (h : HashingUtility) : Ctx :=
  { ctx with hashSync := h.hashSync, compareSync := h.compareSync }

/-! ## Concrete data for evaluation -/

/-- A run of decimal digits as a number; `none` when it is empty or holds
another character. -/
def digitsToNumber (ds : List Char) : Option Int :=
  if ds.all Char.isDigit ∧ ds ≠ [] then
    some (Int.ofNat (ds.foldl (fun n c => 10 * n + (c.toNat - 48)) 0))
  else none

/-- A string-to-number conversion for evaluation on concrete requests: the
empty string is 0, a decimal integer literal with an optional sign is its
value, every other string is left as not a number. It does not cover
blanks, fractions, exponents or hexadecimal literals; no theorem below
evaluates it on such a string. -/
def sampleStringToNumber (s : String) : Option Int :=
  match s.data with
  | [] => some 0
  | '-' :: ds => (digitsToNumber ds).map (fun n => -n)
  | '+' :: ds => digitsToNumber ds
  | ds => digitsToNumber ds

/-- A hashing utility for evaluation on concrete requests, not bcrypt: the
hash is a marker, the salt and the plaintext in a row, and the comparison
checks that the hash ends in the plaintext and is not the plaintext. It has
the round trip of `HashingUtility`. -/
def sampleHashing : HashingUtility where
  hashSync := fun salt plain => "$2a$" ++ salt ++ plain
  compareSync := fun plain hash => plain.data.isSuffixOf hash.data ∧ plain ≠ hash
  hash_ne_plain := by
    intro salt plain h
    have hlen := congrArg String.length h
    simp only [String.length_append] at hlen
    have h4 : "$2a$".length = 4 := by decide
    omega
  compare_hash := by
    intro salt plain
    have hne : plain ≠ "$2a$" ++ salt ++ plain := by
      intro h
      have hlen := congrArg String.length h
      simp only [String.length_append] at hlen
      have h4 : "$2a$".length = 4 := by decide
      omega
    have hsuf : plain.data.isSuffixOf ("$2a$" ++ salt ++ plain).data = true := by
      rw [String.data_append, List.isSuffixOf_iff_suffix]
      exact List.suffix_append _ _
    exact decide_eq_true ⟨hsuf, hne⟩

/-- A context for evaluation on concrete requests: the two functions above
and models whose validators accept every document. -/
def sampleCtx : Ctx where
  stringToNumber := sampleStringToNumber
  hashSync := sampleHashing.hashSync
  compareSync := sampleHashing.compareSync
  validProduct := fun _ => true
  validUser := fun _ => true

/-- A fresh id and a salt. -/
def sampleEnv : Env := { newId := 7, salt := "s1" }

/-- A product whose owner is the number 1. -/
def pen : Product := { _id := 1, name := .str "pen", price := .num 3, user_id := .num 1 }

/-- A product whose owner is the string "u2". -/
def ink : Product := { _id := 2, name := .str "ink", price := .num 5, user_id := .str "u2" }

/-- A user whose stored hash is the sample hash of "pw" with salt "s0". -/
def ann : User :=
  { _id := 10, username := .str "ann", email := .str "ann@x.io", password := "$2a$s0pw" }

/-- A database with two products and one user. -/
def sampleDb : Db := { products := [pen, ink], users := [ann] }

/-! ## Lemmas on values and on the persistence layer -/

theorem looseEq_self (toNum : String → Option Int) (v : JSVal) :
    looseEq toNum v v = true := by
  cases v <;> simp [looseEq]

theorem lookupProduct_mem {ps : List Product} {i : ObjectId} {p : Product}
    (h : lookupProduct ps i = some p) : p ∈ ps ∧ p._id = i := by
  unfold lookupProduct at h
  refine ⟨List.mem_of_find?_eq_some h, ?_⟩
  have := List.find?_some h
  simpa using this

theorem lookupProduct_none {ps : List Product} {i : ObjectId} :
    lookupProduct ps i = none ↔ ∀ p ∈ ps, p._id ≠ i := by
  unfold lookupProduct
  simp [List.find?_eq_none]

/-- Two documents of a collection with unique ids that share an id are equal. -/
theorem eq_of_id_eq {ps : List Product} (hnd : (ps.map (·._id)).Nodup)
    {p q : Product} (hp : p ∈ ps) (hq : q ∈ ps) (h : q._id = p._id) : q = p :=
  List.inj_on_of_nodup_map hnd hq hp h

theorem lookupProduct_of_mem {ps : List Product} (hnd : (ps.map (·._id)).Nodup)
    {p : Product} (hp : p ∈ ps) : lookupProduct ps p._id = some p := by
  cases h : lookupProduct ps p._id with
  | none => exact absurd rfl (lookupProduct_none.mp h p hp)
  | some q =>
    obtain ⟨hq, hid⟩ := lookupProduct_mem h
    rw [eq_of_id_eq hnd hp hq hid]

theorem findById_of_mem {ps : List Product} (hnd : (ps.map (·._id)).Nodup)
    {p : Product} (hp : p ∈ ps) : findById ps (some p._id) = (none, some p) := by
  simp [findById, lookupProduct_of_mem hnd hp]

/-! ## Ownership gate (C1) -/

/-- C1, as stated, fails: the product `pen` is owned by the number 1, the
request carries `userId = true`, which is a different value, and `1 == true`
holds in JavaScript, so none of the three gated handlers answers "401": the
read returns the record, the update is carried out and the delete too. -/
theorem ownership_gate_strict_counterexample :
    sampleDb.WF ∧ pen ∈ sampleDb.products ∧
    ({ userId := .bool true } : Body).userId ≠ pen.user_id ∧
    (handle sampleCtx sampleEnv sampleDb
      (.postProductById (some pen._id) { userId := .bool true })).sent
        = some (.product pen) ∧
    (handle sampleCtx sampleEnv sampleDb
      (.patchProductById (some pen._id) { userId := .bool true })).sent
        = some (.updateResult { n := 1, nModified := 1 }) ∧
    (handle sampleCtx sampleEnv sampleDb
      (.deleteProductById (some pen._id) { userId := .bool true })).sent
        = some (.text "deleted") := by
  decide

/-- C1, amended: for a stored product `P` and a body whose `userId` is not
loosely equal (`==`) to the stored `user_id`, the three gated handlers called
with the id of `P` send the literal "401"; when the two are loosely equal, and
so in particular when they are equal, `POST /product/:id` sends `P` itself. -/
theorem ownership_gate (ctx : Ctx) (env : Env) (db : Db) (P : Product) (body : Body)
    (hwf : db.WF) (hP : P ∈ db.products) :
    (looseEq ctx.stringToNumber P.user_id body.userId = false →
      (handle ctx env db (.postProductById (some P._id) body)).sent
          = some (.text "401") ∧
      (handle ctx env db (.patchProductById (some P._id) body)).sent
          = some (.text "401") ∧
      (handle ctx env db (.deleteProductById (some P._id) body)).sent
          = some (.text "401")) ∧
    (looseEq ctx.stringToNumber P.user_id body.userId = true →
      (handle ctx env db (.postProductById (some P._id) body)).sent
          = some (.product P)) ∧
    (body.userId = P.user_id →
      (handle ctx env db (.postProductById (some P._id) body)).sent
          = some (.product P)) := by
  have hf := findById_of_mem hwf.1 hP
  refine ⟨fun h => ?_, fun h => ?_, fun h => ?_⟩
  · simp [handle, postProductById, patchProductById, deleteProductById, hf, h,
      onQueryError, reply]
  · simp [handle, postProductById, hf, h, reply]
  · have h2 : looseEq ctx.stringToNumber P.user_id body.userId = true := by
      rw [h]; exact looseEq_self _ _
    simp [handle, postProductById, hf, h2, reply]

/-- The amended C1 at a concrete request: `ink` is owned by "u2" and the
request carries "u1". -/
theorem ownership_gate_witness :
    (handle sampleCtx sampleEnv sampleDb
      (.postProductById (some ink._id) { userId := .str "u1" })).sent
        = some (.text "401") :=
  ((ownership_gate sampleCtx sampleEnv sampleDb ink { userId := .str "u1" }
    (by decide) (by decide)).1 (by decide)).1

/-! ## Registration with a taken username (C2) -/

theorem findOneByUsername_isSome {us : List User} {v : JSVal}
    (h : ∃ x ∈ us, x.username = v) : ∃ x, findOneByUsername us v = some x := by
  obtain ⟨x, hx, hv⟩ := h
  cases hf : findOneByUsername us v with
  | some y => exact ⟨y, rfl⟩
  | none =>
    unfold findOneByUsername at hf
    rw [List.find?_eq_none] at hf
    exact absurd (by simpa using hv) (hf x hx)

theorem findOneByUsername_mem {us : List User} {v : JSVal} {x : User}
    (h : findOneByUsername us v = some x) : x ∈ us ∧ x.username = v := by
  unfold findOneByUsername at h
  refine ⟨List.mem_of_find?_eq_some h, ?_⟩
  have := List.find?_some h
  simpa using this

/-- C2: when a stored user already has the username of the body, `POST /users`
sends "user already exists" and leaves the database as it was: it issues no
write, so no record is added and no stored field changes. -/
theorem register_taken_username (ctx : Ctx) (env : Env) (db : Db) (body : Body)
    (h : ∃ x ∈ db.users, x.username = body.username) :
    (handle ctx env db (.postUsers body)).sent = some (.text "user already exists") ∧
    (handle ctx env db (.postUsers body)).db = db ∧
    (handle ctx env db (.postUsers body)).writes = [] ∧
    (handle ctx env db (.postUsers body)).thrown = none := by
  obtain ⟨x, hx⟩ := findOneByUsername_isSome h
  simp [handle, postUsers, hx, reply]

/-- C2 at a concrete request: "ann" is taken. -/
theorem register_taken_username_witness :
    (handle sampleCtx sampleEnv sampleDb
      (.postUsers { username := .str "ann", email := .str "b@x.io",
                    password := .str "other" })).db = sampleDb :=
  (register_taken_username sampleCtx sampleEnv sampleDb
    { username := .str "ann", email := .str "b@x.io", password := .str "other" }
    ⟨ann, by decide, by decide⟩).2.1

/-! ## Login (C3) -/

/-- C3, as stated, fails: "ann" is a stored user and the request carries her
username and no password. `bcrypt.compareSync` throws on a password that is
not a string, so the callback sends nothing: none of the three outcomes
occurs. -/
theorem login_outcomes_counterexample :
    ann ∈ sampleDb.users ∧ ann.username = ({ username := .str "ann" } : Body).username ∧
    (handle sampleCtx sampleEnv sampleDb (.postGetUser { username := .str "ann" })).sent
      = none ∧
    (handle sampleCtx sampleEnv sampleDb (.postGetUser { username := .str "ann" })).thrown
      = some .illegalArguments ∧
    (handle sampleCtx sampleEnv sampleDb (.postGetUser { username := .str "ann" })).sent
      ≠ some (.text "invalid user") ∧
    (handle sampleCtx sampleEnv sampleDb (.postGetUser { username := .str "ann" })).sent
      ≠ some (.text "invalid password") ∧
    (handle sampleCtx sampleEnv sampleDb (.postGetUser { username := .str "ann" })).sent
      ≠ some (.user ann) := by
  decide

/-- C3, amended: a login request leaves the database as it was and
* when no stored user has the requested username, "invalid user" is sent,
  whatever the password;
* when one has and the password is a string `p`, the lookup finds a stored
  user `x` with that username, and "invalid password" is sent when
  `compareSync p x.password` is false, the record `x` when it is true;
* exactly one of the three outcomes occurs whenever the password is a string
  or no stored user has the requested username. -/
theorem login_outcomes (ctx : Ctx) (env : Env) (db : Db) (body : Body) :
    (handle ctx env db (.postGetUser body)).db = db ∧
    ((∀ x ∈ db.users, x.username ≠ body.username) →
      (handle ctx env db (.postGetUser body)).sent = some (.text "invalid user")) ∧
    (∀ p : String, body.password = .str p →
      (∃ x ∈ db.users, x.username = body.username) →
      ∃ x ∈ db.users, x.username = body.username ∧
        findOneByUsername db.users body.username = some x ∧
        (ctx.compareSync p x.password = false →
          (handle ctx env db (.postGetUser body)).sent
            = some (.text "invalid password")) ∧
        (ctx.compareSync p x.password = true →
          (handle ctx env db (.postGetUser body)).sent = some (.user x))) ∧
    (((∃ p : String, body.password = .str p) ∨
        (∀ x ∈ db.users, x.username ≠ body.username)) →
      (((handle ctx env db (.postGetUser body)).sent = some (.text "invalid user") ∧
        (handle ctx env db (.postGetUser body)).sent ≠ some (.text "invalid password") ∧
        ¬ ∃ x, (handle ctx env db (.postGetUser body)).sent = some (.user x)) ∨
      ((handle ctx env db (.postGetUser body)).sent ≠ some (.text "invalid user") ∧
        (handle ctx env db (.postGetUser body)).sent = some (.text "invalid password") ∧
        ¬ ∃ x, (handle ctx env db (.postGetUser body)).sent = some (.user x)) ∨
      ((handle ctx env db (.postGetUser body)).sent ≠ some (.text "invalid user") ∧
        (handle ctx env db (.postGetUser body)).sent ≠ some (.text "invalid password") ∧
        ∃ x ∈ db.users, x.username = body.username ∧
          (handle ctx env db (.postGetUser body)).sent = some (.user x)))) := by
  have hnone_of : (∀ x ∈ db.users, x.username ≠ body.username) →
      findOneByUsername db.users body.username = none := by
    intro h
    unfold findOneByUsername
    rw [List.find?_eq_none]
    intro x hx
    simpa using h x hx
  refine ⟨?_, ?_, ?_, ?_⟩
  · simp only [handle, postGetUser]
    cases findOneByUsername db.users body.username with
    | none => rfl
    | some x =>
      cases body.password with
      | str s => dsimp only; split <;> rfl
      | nullish => rfl
      | bool b => rfl
      | num n => rfl
  · intro h
    simp [handle, postGetUser, hnone_of h, reply]
  · intro p hp h
    obtain ⟨x, hx⟩ := findOneByUsername_isSome h
    obtain ⟨hmem, hname⟩ := findOneByUsername_mem hx
    refine ⟨x, hmem, hname, hx, fun hc => ?_, fun hc => ?_⟩
    · simp [handle, postGetUser, hx, hp, hc, reply]
    · simp [handle, postGetUser, hx, hp, hc, reply]
  · intro h
    cases hx : findOneByUsername db.users body.username with
    | none =>
      left
      simp [handle, postGetUser, hx, reply]
    | some x =>
      obtain ⟨hmem, hname⟩ := findOneByUsername_mem hx
      rcases h with ⟨p, hp⟩ | h
      · cases hc : ctx.compareSync p x.password with
        | false =>
          right; left
          simp [handle, postGetUser, hx, hp, hc, reply]
        | true =>
          right; right
          refine ⟨?_, ?_, x, hmem, hname, ?_⟩ <;>
            simp [handle, postGetUser, hx, hp, hc, reply]
      · exact absurd hname (h x hmem)

/-- The amended C3 at a concrete request: "ann" logs in with the password
"pw", whose hash is stored, and her record is sent. -/
theorem login_outcomes_witness :
    ∃ x ∈ sampleDb.users, x.username = .str "ann" ∧
      findOneByUsername sampleDb.users (.str "ann") = some x ∧
      (sampleCtx.compareSync "pw" x.password = false →
        (handle sampleCtx sampleEnv sampleDb
          (.postGetUser { username := .str "ann", password := .str "pw" })).sent
            = some (.text "invalid password")) ∧
      (sampleCtx.compareSync "pw" x.password = true →
        (handle sampleCtx sampleEnv sampleDb
          (.postGetUser { username := .str "ann", password := .str "pw" })).sent
            = some (.user x)) :=
  (login_outcomes sampleCtx sampleEnv sampleDb
    { username := .str "ann", password := .str "pw" }).2.2.1 "pw" rfl
    ⟨ann, by decide, by decide⟩

/-! ## Register, then log in (C4) -/

theorem find?_append_singleton_of_none {α : Type} (f : α → Bool) (xs : List α) (a : α)
    (hxs : xs.find? f = none) (ha : f a = true) : (xs ++ [a]).find? f = some a := by
  rw [List.find?_append, hxs]
  simp [List.find?, ha]

/-- C4: with the hashing utility `bc`, in a store with no user of the
requested username, when `POST /users` with the plaintext password `p`
succeeds (it answers with the record `u` it stored), `u` is appended to the
users, carries the requested username, and its `password` field is the hash
of `p`, which is not the plaintext `p`; verifying `p` against that stored hash
succeeds, and a following `POST /getUser` with the same username and password
sends the stored record `u`, neither "invalid password" nor "invalid user". -/
theorem register_then_login (ctx : Ctx) (bc : HashingUtility) (env env2 : Env) (db : Db)
    (body body2 : Body) (p : String) (u : User)
    (hp : body.password = .str p)
    (hfree : ∀ x ∈ db.users, x.username ≠ body.username)
    (hok : (handle (ctx.withHashing bc) env db (.postUsers body)).sent = some (.user u))
    (hu2 : body2.username = body.username) (hp2 : body2.password = .str p) :
    (handle (ctx.withHashing bc) env db (.postUsers body)).db.users = db.users ++ [u] ∧
    u.username = body.username ∧
    u.password = bc.hashSync env.salt p ∧
    u.password ≠ p ∧
    bc.compareSync p u.password = true ∧
    (handle (ctx.withHashing bc) env2
      (handle (ctx.withHashing bc) env db (.postUsers body)).db (.postGetUser body2)).sent
      = some (.user u) ∧
    (handle (ctx.withHashing bc) env2
      (handle (ctx.withHashing bc) env db (.postUsers body)).db (.postGetUser body2)).sent
      ≠ some (.text "invalid password") ∧
    (handle (ctx.withHashing bc) env2
      (handle (ctx.withHashing bc) env db (.postUsers body)).db (.postGetUser body2)).sent
      ≠ some (.text "invalid user") := by
  have hnone : findOneByUsername db.users body.username = none := by
    unfold findOneByUsername
    rw [List.find?_eq_none]
    intro x hx
    simpa using hfree x hx
  have hver := bc.compare_hash env.salt p
  have hne := bc.hash_ne_plain env.salt p
  have hh : (ctx.withHashing bc).hashSync = bc.hashSync := rfl
  have hc : (ctx.withHashing bc).compareSync = bc.compareSync := rfl
  simp only [handle, postUsers, hnone, hp, hh] at hok ⊢
  cases hs : saveUser (ctx.withHashing bc) db.users
      { _id := env.newId, username := body.username, email := body.email,
        password := bc.hashSync env.salt p } with
  | error e =>
    rw [hs] at hok
    cases e <;> simp [reply] at hok
  | ok us =>
    rw [hs] at hok
    simp only [Option.some.injEq, Payload.user.injEq] at hok
    subst hok
    have hus : us = db.users ++
        [({ _id := env.newId, username := body.username, email := body.email,
            password := bc.hashSync env.salt p } : User)] := by
      unfold saveUser at hs
      split at hs
      · split at hs
        · cases hs
        · exact (Except.ok.inj hs).symm
      · cases hs
    subst hus
    have hfind : findOneByUsername (db.users ++
        [({ _id := env.newId, username := body.username, email := body.email,
            password := bc.hashSync env.salt p } : User)]) body2.username
        = some { _id := env.newId, username := body.username, email := body.email,
                 password := bc.hashSync env.salt p } := by
      unfold findOneByUsername
      apply find?_append_singleton_of_none
      · rw [hu2]; exact hnone
      · simp [hu2]
    refine ⟨rfl, rfl, rfl, hne, hver, ?_, ?_, ?_⟩ <;>
      simp [postGetUser, hfind, hp2, hc, hver, reply]

/-- C4 at a concrete request: "bob" registers with "pw2" and logs in. -/
theorem register_then_login_witness :
    (handle (sampleCtx.withHashing sampleHashing) sampleEnv
      (handle (sampleCtx.withHashing sampleHashing) sampleEnv sampleDb
        (.postUsers { username := .str "bob", password := .str "pw2" })).db
      (.postGetUser { username := .str "bob", password := .str "pw2" })).sent
      = some (.user { _id := 7, username := .str "bob", email := .nullish,
                      password := "$2a$s1pw2" }) :=
  (register_then_login sampleCtx sampleHashing sampleEnv sampleEnv sampleDb
    { username := .str "bob", password := .str "pw2" }
    { username := .str "bob", password := .str "pw2" } "pw2"
    { _id := 7, username := .str "bob", email := .nullish, password := "$2a$s1pw2" }
    rfl (by decide) (by decide) rfl rfl).2.2.2.2.2.1

/-! ## Create, then fetch (C5) -/

theorem saveProduct_ok {ctx : Ctx} {ps ps' : List Product} {p : Product}
    (h : saveProduct ctx ps p = .ok ps') :
    ps' = ps ++ [p] ∧ ∀ q ∈ ps, q._id ≠ p._id := by
  unfold saveProduct at h
  split at h
  · split at h
    · cases h
    · rename_i hany
      refine ⟨(Except.ok.inj h).symm, fun q hq hid => hany ?_⟩
      exact List.any_eq_true.mpr ⟨q, hq, by simpa using hid⟩
  · cases h

/-- C5: when the save of `POST /product` succeeds, the handler sends the
stored record, whose `name`, `price` and `user_id` are the `name`, `price` and
`userId` of the body, and a following `GET /product/:id` with the id of that
record sends a record with the same id and the same three fields. -/
theorem create_then_fetch (ctx : Ctx) (env env2 : Env) (db : Db) (body : Body)
    (ps' : List Product)
    (hsave : saveProduct ctx db.products
      { _id := env.newId, name := body.name, price := body.price,
        user_id := body.userId } = .ok ps') :
    (∃ r, (handle ctx env db (.postProduct body)).sent = some (.product r) ∧
      r ∈ (handle ctx env db (.postProduct body)).db.products ∧
      r._id = env.newId ∧ r.name = body.name ∧ r.price = body.price ∧
      r.user_id = body.userId) ∧
    (∃ q, (handle ctx env2 (handle ctx env db (.postProduct body)).db
        (.getProductById (some env.newId))).sent = some (.product q) ∧
      q._id = env.newId ∧ q.name = body.name ∧ q.price = body.price ∧
      q.user_id = body.userId) := by
  obtain ⟨hps, hfresh⟩ := saveProduct_ok hsave
  subst hps
  have hlook : lookupProduct (db.products ++
      [({ _id := env.newId, name := body.name, price := body.price,
          user_id := body.userId } : Product)]) env.newId
      = some { _id := env.newId, name := body.name, price := body.price,
               user_id := body.userId } := by
    unfold lookupProduct
    apply find?_append_singleton_of_none
    · rw [List.find?_eq_none]
      intro q hq
      simpa using hfresh q hq
    · simp
  refine ⟨⟨{ _id := env.newId, name := body.name, price := body.price,
              user_id := body.userId }, ?_, ?_, rfl, rfl, rfl, rfl⟩,
    ⟨{ _id := env.newId, name := body.name, price := body.price,
       user_id := body.userId }, ?_, rfl, rfl, rfl, rfl⟩⟩
  · simp only [handle, postProduct, hsave]
  · simp [handle, postProduct, hsave]
  · simp [handle, postProduct, hsave, getProductById, findById, hlook, reply]

/-- C5 at a concrete request: a product is created under the fresh id 7. -/
theorem create_then_fetch_witness :
    ∃ q, (handle sampleCtx sampleEnv
        (handle sampleCtx sampleEnv sampleDb
          (.postProduct { name := .str "cap", price := .num 9, userId := .str "u2" })).db
        (.getProductById (some sampleEnv.newId))).sent = some (.product q) ∧
      q._id = sampleEnv.newId ∧ q.name = .str "cap" ∧ q.price = .num 9 ∧
      q.user_id = .str "u2" :=
  (create_then_fetch sampleCtx sampleEnv sampleEnv sampleDb
    { name := .str "cap", price := .num 9, userId := .str "u2" }
    [pen, ink, { _id := 7, name := .str "cap", price := .num 9, user_id := .str "u2" }]
    rfl).2

/-! ## Delete, then fetch (C6) -/

theorem deleteFirst_subset {i : ObjectId} {ps : List Product} {q : Product}
    (h : q ∈ deleteFirst i ps) : q ∈ ps := by
  induction ps with
  | nil => simp [deleteFirst] at h
  | cons p ps ih =>
    unfold deleteFirst at h
    split at h
    · exact List.mem_cons_of_mem _ h
    · rcases List.mem_cons.mp h with h | h
      · exact h ▸ List.mem_cons_self _ _
      · exact List.mem_cons_of_mem _ (ih h)

theorem deleteFirst_sublist (i : ObjectId) (ps : List Product) :
    (deleteFirst i ps).Sublist ps := by
  induction ps with
  | nil => simp [deleteFirst]
  | cons p ps ih =>
    unfold deleteFirst
    split
    · exact List.sublist_cons_self _ _
    · exact ih.cons₂ _

theorem deleteFirst_absent {i : ObjectId} {ps : List Product}
    (hnd : (ps.map (·._id)).Nodup) : ∀ q ∈ deleteFirst i ps, q._id ≠ i := by
  induction ps with
  | nil => simp [deleteFirst]
  | cons p ps ih =>
    rw [List.map_cons, List.nodup_cons] at hnd
    intro q hq
    unfold deleteFirst at hq
    split at hq
    · rename_i hpi
      intro hqi
      exact hnd.1 (List.mem_map.mpr ⟨q, hq, by rw [hqi, hpi]⟩)
    · rename_i hpi
      rcases List.mem_cons.mp hq with h | h
      · rw [h]; exact hpi
      · exact ih hnd.2 q h

/-- C6, as stated, fails: after the owner has deleted `pen`, the lookup of
`GET /product/:id` matches nothing, which is not an error for the store, and
the handler sends the null result as a success body, not an error. -/
theorem delete_then_fetch_error_counterexample :
    (handle sampleCtx sampleEnv sampleDb
      (.deleteProductById (some pen._id) { userId := pen.user_id })).sent
        = some (.text "deleted") ∧
    (handle sampleCtx sampleEnv
      (handle sampleCtx sampleEnv sampleDb
        (.deleteProductById (some pen._id) { userId := pen.user_id })).db
      (.getProductById (some pen._id))).sent = some .null ∧
    Payload.isError .null = false := by
  decide

/-- C6, amended: after the owner has deleted the stored product `P` and the
handler has sent "deleted", no product with the id of `P` is left in the
collection and a following `GET /product/:id` with that id does not send `P`:
it sends the null lookup result, with no error. -/
theorem delete_then_fetch (ctx : Ctx) (env env2 : Env) (db : Db) (P : Product)
    (body : Body) (hwf : db.WF) (hP : P ∈ db.products)
    (hown : body.userId = P.user_id) :
    (handle ctx env db (.deleteProductById (some P._id) body)).sent
      = some (.text "deleted") ∧
    (∀ q ∈ (handle ctx env db (.deleteProductById (some P._id) body)).db.products,
      q._id ≠ P._id) ∧
    (handle ctx env2 (handle ctx env db (.deleteProductById (some P._id) body)).db
      (.getProductById (some P._id))).sent = some .null ∧
    (handle ctx env2 (handle ctx env db (.deleteProductById (some P._id) body)).db
      (.getProductById (some P._id))).thrown = none := by
  have hf := findById_of_mem hwf.1 hP
  have hl : looseEq ctx.stringToNumber P.user_id body.userId = true := by
    rw [hown]; exact looseEq_self _ _
  have hdb : (handle ctx env db (.deleteProductById (some P._id) body)).db
      = { db with products := deleteFirst P._id db.products } := by
    simp [handle, deleteProductById, hf, hl, onQueryError, deleteOne]
  have hgone : lookupProduct (deleteFirst P._id db.products) P._id = none :=
    lookupProduct_none.mpr (deleteFirst_absent hwf.1)
  refine ⟨?_, ?_, ?_, ?_⟩
  · simp [handle, deleteProductById, hf, hl, onQueryError]
  · rw [hdb]; exact deleteFirst_absent hwf.1
  · rw [hdb]; simp [handle, getProductById, findById, hgone, reply]
  · rw [hdb]; simp [handle, getProductById, findById, hgone, reply]

/-- The amended C6 at a concrete request: the owner deletes `ink`. -/
theorem delete_then_fetch_witness :
    (handle sampleCtx sampleEnv
      (handle sampleCtx sampleEnv sampleDb
        (.deleteProductById (some ink._id) { userId := .str "u2" })).db
      (.getProductById (some ink._id))).sent = some .null :=
  (delete_then_fetch sampleCtx sampleEnv sampleEnv sampleDb ink { userId := .str "u2" }
    (by decide) (by decide) rfl).2.2.1

/-! ## Update and delete with an id that matches nothing (C7) -/

theorem absent_id_crash (ctx : Ctx) (env : Env) (db : Db) (i : ObjectId) (body : Body)
    (h : ∀ p ∈ db.products, p._id ≠ i) :
    handle ctx env db (.patchProductById (some i) body) = crash db .typeError ∧
    handle ctx env db (.deleteProductById (some i) body) = crash db .typeError := by
  have hl := lookupProduct_none.mpr h
  simp [handle, patchProductById, deleteProductById, findById, hl, onQueryError]

/-- C7 fails on the code: no stored product has the id 99, and the update and
the delete handler called with it send nothing, in particular not "cannot
find product with that id": the lookup calls back with a null product and
reading `product['user_id']` throws a TypeError. -/
theorem absent_id_not_reported :
    (∀ p ∈ sampleDb.products, p._id ≠ 99) ∧
    (handle sampleCtx sampleEnv sampleDb
      (.patchProductById (some 99) { userId := .str "u2" })).sent = none ∧
    (handle sampleCtx sampleEnv sampleDb
      (.patchProductById (some 99) { userId := .str "u2" })).thrown
        = some .typeError ∧
    (handle sampleCtx sampleEnv sampleDb
      (.deleteProductById (some 99) { userId := .str "u2" })).sent = none ∧
    (handle sampleCtx sampleEnv sampleDb
      (.deleteProductById (some 99) { userId := .str "u2" })).thrown
        = some .typeError := by
  decide

/-! ## The update of one document -/

theorem setFirst_ids (i : ObjectId) (name price : JSVal) (ps : List Product) :
    (setFirst i name price ps).map (·._id) = ps.map (·._id) := by
  induction ps with
  | nil => rfl
  | cons p ps ih =>
    unfold setFirst
    split
    · rfl
    · simp only [List.map_cons, ih]

theorem setFirst_origin {i : ObjectId} {name price : JSVal} {ps : List Product}
    {q : Product} (h : q ∈ setFirst i name price ps) :
    ∃ p ∈ ps, p._id = q._id ∧ p.user_id = q.user_id := by
  induction ps with
  | nil => simp [setFirst] at h
  | cons p ps ih =>
    unfold setFirst at h
    split at h
    · rcases List.mem_cons.mp h with h | h
      · exact ⟨p, List.mem_cons_self _ _, by rw [h], by rw [h]⟩
      · exact ⟨q, List.mem_cons_of_mem _ h, rfl, rfl⟩
    · rcases List.mem_cons.mp h with h | h
      · exact ⟨p, List.mem_cons_self _ _, by rw [h], by rw [h]⟩
      · obtain ⟨r, hr, h1, h2⟩ := ih h
        exact ⟨r, List.mem_cons_of_mem _ hr, h1, h2⟩

/-- With unique ids, setting the first document with `_id = i` touches the
only document with that id and no other. -/
theorem setFirst_eq_map {i : ObjectId} {name price : JSVal} {ps : List Product}
    (hnd : (ps.map (·._id)).Nodup) :
    setFirst i name price ps
      = ps.map (fun q => if q._id = i then { q with name := name, price := price } else q) := by
  induction ps with
  | nil => rfl
  | cons p ps ih =>
    rw [List.map_cons, List.nodup_cons] at hnd
    unfold setFirst
    split
    · rename_i hpi
      rw [List.map_cons, if_pos hpi]
      congr 1
      symm
      calc ps.map (fun q => if q._id = i then { q with name := name, price := price } else q)
          = ps.map id := by
            apply List.map_congr_left
            intro q hq
            have : q._id ≠ i := fun hqi =>
              hnd.1 (List.mem_map.mpr ⟨q, hq, by rw [hqi, hpi]⟩)
            simp [this]
        _ = ps := List.map_id ps
    · rename_i hpi
      rw [List.map_cons, if_neg hpi, ih hnd.2]

theorem lookupProduct_setFirst (i : ObjectId) (name price : JSVal) (ps : List Product) :
    lookupProduct (setFirst i name price ps) i
      = (lookupProduct ps i).map (fun p => { p with name := name, price := price }) := by
  induction ps with
  | nil => rfl
  | cons p ps ih =>
    unfold setFirst
    split
    · rename_i hpi
      simp [lookupProduct, List.find?, hpi]
    · rename_i hpi
      have hb : (p._id == i) = false := by simpa using hpi
      unfold lookupProduct at ih ⊢
      simp only [List.find?, hb]
      exact ih

/-! ## Owner immutability (C8) -/

/-- Every product in the collection after a request either stems from a
product of the collection before it, with the same `_id` and `user_id`, or
carries an id no product had before. -/
theorem handle_origin (ctx : Ctx) (env : Env) (db : Db) (req : Request) :
    ∀ q ∈ (handle ctx env db req).db.products,
      (∃ p ∈ db.products, p._id = q._id ∧ p.user_id = q.user_id) ∨
      (∀ p ∈ db.products, p._id ≠ q._id) := by
  have same : ∀ q ∈ db.products,
      (∃ p ∈ db.products, p._id = q._id ∧ p.user_id = q.user_id) ∨
      (∀ p ∈ db.products, p._id ≠ q._id) := fun q hq => Or.inl ⟨q, hq, rfl, rfl⟩
  intro q hq
  cases req with
  | getHome => exact same q hq
  | getAllProducts => exact same q hq
  | getProductById id =>
    apply same
    simp only [handle, getProductById] at hq
    split at hq <;> exact hq
  | postProductById id body =>
    apply same
    simp only [handle, postProductById] at hq
    split at hq
    · exact hq
    · split at hq <;> exact hq
  | postGetUser body =>
    apply same
    simp only [handle, postGetUser] at hq
    split at hq
    · split at hq
      · split at hq <;> exact hq
      · exact hq
    · exact hq
  | postUsers body =>
    apply same
    simp only [handle, postUsers] at hq
    split at hq
    · exact hq
    · split at hq
      · split at hq <;> exact hq
      · exact hq
  | postProduct body =>
    simp only [handle, postProduct] at hq
    split at hq
    · rename_i ps hs
      obtain ⟨hps, hfresh⟩ := saveProduct_ok hs
      subst hps
      rcases List.mem_append.mp hq with h | h
      · exact same q h
      · rw [List.mem_singleton] at h
        right
        intro p hp
        rw [h]
        exact hfresh p hp
    · exact same q hq
    · exact same q hq
  | patchProductById id body =>
    simp only [handle, patchProductById] at hq
    cases id with
    | none => exact same q (by simpa [findById, onQueryError, crash] using hq)
    | some i =>
      simp only [findById, onQueryError] at hq
      cases hl : lookupProduct db.products i with
      | none =>
        rw [hl] at hq
        exact same q hq
      | some r =>
        rw [hl] at hq
        simp only [updateOne, hl] at hq
        split at hq
        · exact Or.inl (setFirst_origin hq)
        · exact same q hq
  | deleteProductById id body =>
    simp only [handle, deleteProductById] at hq
    cases id with
    | none => exact same q (by simpa [findById, onQueryError, crash] using hq)
    | some i =>
      simp only [findById, onQueryError] at hq
      split at hq
      · exact same q hq
      · split at hq
        · exact same q (deleteFirst_subset hq)
        · exact same q hq

/-- C8: in a store with unique ids, for every request to a registered route
and every product that is in the collection before and after the request
(the same `_id`), the `user_id` after the request is the `user_id` before it.
This covers `PATCH /product/:id` on an ownership match, whatever `userId` and
whatever unread fields (`extra`) the body carries. -/
theorem owner_immutable (ctx : Ctx) (env : Env) (db : Db) (req : Request) (hwf : db.WF)
    (p q : Product) (hp : p ∈ db.products)
    (hq : q ∈ (handle ctx env db req).db.products) (hid : q._id = p._id) :
    q.user_id = p.user_id ∧ q._id = p._id := by
  refine ⟨?_, hid⟩
  rcases handle_origin ctx env db req q hq with ⟨r, hr, h1, h2⟩ | h
  · have : r = p := eq_of_id_eq hwf.1 hp hr (h1.trans hid)
    rw [← h2, this]
  · exact absurd hid.symm (h p hp)

/-- C8 at a concrete request: the owner of `pen` updates it and sends a
different `user_id` along; the stored owner stays the number 1. -/
theorem owner_immutable_witness :
    ({ _id := 1, name := .str "quill", price := .num 4, user_id := .num 1 } : Product).user_id
        = pen.user_id ∧
      ({ _id := 1, name := .str "quill", price := .num 4, user_id := .num 1 } : Product)._id
        = pen._id :=
  owner_immutable sampleCtx sampleEnv sampleDb
    (.patchProductById (some 1)
      { name := .str "quill", price := .num 4, userId := .num 1,
        extra := [("user_id", .str "u2")] })
    (by decide) pen
    { _id := 1, name := .str "quill", price := .num 4, user_id := .num 1 }
    (by decide) (by decide) rfl

/-! ## Update by the owner (C9) -/

/-- C9: for a stored product `P` and a body whose `userId` is the stored
`user_id`, `PATCH /product/:id` with the id of `P` issues one `updateOne`
keyed on that id with the `name` and `price` of the body, sends the result of
that operation, leaves the users and every other product as they were, and a
following `GET /product/:id` with the id of `P` sends `P` with the new `name`
and `price`. -/
theorem patch_by_owner (ctx : Ctx) (env env2 : Env) (db : Db) (P : Product) (body : Body)
    (hwf : db.WF) (hP : P ∈ db.products) (hown : body.userId = P.user_id) :
    (handle ctx env db (.patchProductById (some P._id) body)).writes
      = [.updateOne P._id body.name body.price] ∧
    (∃ r, updateOne db.products (some P._id) body.name body.price
        = .ok ((handle ctx env db (.patchProductById (some P._id) body)).db.products, r) ∧
      (handle ctx env db (.patchProductById (some P._id) body)).sent
        = some (.updateResult r) ∧ r.n = 1) ∧
    (handle ctx env db (.patchProductById (some P._id) body)).db.users = db.users ∧
    (handle ctx env db (.patchProductById (some P._id) body)).db.products
      = db.products.map (fun q =>
          if q._id = P._id then { q with name := body.name, price := body.price } else q) ∧
    (∀ q ∈ db.products, q ≠ P →
      q ∈ (handle ctx env db (.patchProductById (some P._id) body)).db.products) ∧
    (handle ctx env2 (handle ctx env db (.patchProductById (some P._id) body)).db
      (.getProductById (some P._id))).sent
        = some (.product { P with name := body.name, price := body.price }) := by
  have hlook := lookupProduct_of_mem hwf.1 hP
  have hl : looseEq ctx.stringToNumber P.user_id body.userId = true := by
    rw [hown]; exact looseEq_self _ _
  have hout : handle ctx env db (.patchProductById (some P._id) body)
      = { db := { db with products := setFirst P._id body.name body.price db.products },
          sent := some (.updateResult
            { n := 1, nModified := if P.name = body.name ∧ P.price = body.price then 0 else 1 }),
          writes := [.updateOne P._id body.name body.price] } := by
    simp [handle, patchProductById, findById, hlook, hl, onQueryError, updateOne]
  rw [hout]
  refine ⟨rfl, ⟨_, ?_, rfl, rfl⟩, rfl, setFirst_eq_map hwf.1, ?_, ?_⟩
  · simp [updateOne, hlook]
  · intro q hq hne
    show q ∈ setFirst P._id body.name body.price db.products
    rw [setFirst_eq_map hwf.1]
    refine List.mem_map.mpr ⟨q, hq, ?_⟩
    have : q._id ≠ P._id := fun h => hne (eq_of_id_eq hwf.1 hP hq h)
    simp [this]
  · simp [handle, getProductById, findById, lookupProduct_setFirst, hlook, reply]

/-- C9 at a concrete request: the owner of `ink` renames and reprices it. -/
theorem patch_by_owner_witness :
    (handle sampleCtx sampleEnv
      (handle sampleCtx sampleEnv sampleDb
        (.patchProductById (some ink._id)
          { name := .str "blue ink", price := .num 6, userId := .str "u2" })).db
      (.getProductById (some ink._id))).sent
        = some (.product { ink with name := .str "blue ink", price := .num 6 }) :=
  (patch_by_owner sampleCtx sampleEnv sampleEnv sampleDb ink
    { name := .str "blue ink", price := .num 6, userId := .str "u2" }
    (by decide) (by decide) rfl).2.2.2.2.2

/-! ## A rejected ownership check (C10) -/

/-- C10: a request to `PATCH /product/:id` or `DELETE /product/:id` that is
answered with the literal "401" leaves both collections as they were and
issues no write to the store. -/
theorem rejected_gate_frame (ctx : Ctx) (env : Env) (db : Db) (id : RouteId)
    (body : Body) (req : Request)
    (hreq : req = .patchProductById id body ∨ req = .deleteProductById id body)
    (h401 : (handle ctx env db req).sent = some (.text "401")) :
    (handle ctx env db req).db = db ∧ (handle ctx env db req).writes = [] ∧
    (handle ctx env db req).thrown = none := by
  rcases hreq with rfl | rfl
  · cases id with
    | none => simp [handle, patchProductById, findById, onQueryError, crash, cannotFind] at h401
    | some i =>
      cases hlook : lookupProduct db.products i with
      | none => simp [handle, patchProductById, findById, onQueryError, crash, hlook] at h401
      | some r =>
        cases hl : looseEq ctx.stringToNumber r.user_id body.userId with
        | false => simp [handle, patchProductById, findById, onQueryError, hlook, hl, reply]
        | true =>
          simp [handle, patchProductById, findById, onQueryError, hlook, hl, updateOne]
            at h401
  · cases id with
    | none => simp [handle, deleteProductById, findById, onQueryError, crash, cannotFind] at h401
    | some i =>
      cases hlook : lookupProduct db.products i with
      | none => simp [handle, deleteProductById, findById, onQueryError, crash, hlook] at h401
      | some r =>
        cases hl : looseEq ctx.stringToNumber r.user_id body.userId with
        | false => simp [handle, deleteProductById, findById, onQueryError, hlook, hl, reply]
        | true =>
          simp [handle, deleteProductById, findById, onQueryError, hlook, hl] at h401

/-- C10 at a concrete request: "u1" tries to delete `ink`, owned by "u2". -/
theorem rejected_gate_frame_witness :
    (handle sampleCtx sampleEnv sampleDb
      (.deleteProductById (some ink._id) { userId := .str "u1" })).db = sampleDb :=
  (rejected_gate_frame sampleCtx sampleEnv sampleDb (some ink._id) { userId := .str "u1" }
    (.deleteProductById (some ink._id) { userId := .str "u1" }) (Or.inr rfl)
    (by decide)).1

/-! ## Unique ids are kept by every request -/

theorem saveUser_ok {ctx : Ctx} {us us' : List User} {u : User}
    (h : saveUser ctx us u = .ok us') :
    us' = us ++ [u] ∧ ∀ q ∈ us, q._id ≠ u._id := by
  unfold saveUser at h
  split at h
  · split at h
    · cases h
    · rename_i hany
      refine ⟨(Except.ok.inj h).symm, fun q hq hid => hany ?_⟩
      exact List.any_eq_true.mpr ⟨q, hq, by simpa using hid⟩
  · cases h

theorem nodup_ids_append {α : Type} (f : α → Nat) (xs : List α) (a : α)
    (hnd : (xs.map f).Nodup) (hfresh : ∀ q ∈ xs, f q ≠ f a) :
    ((xs ++ [a]).map f).Nodup := by
  rw [List.map_append, List.nodup_append]
  refine ⟨hnd, by simp, ?_⟩
  intro n hn hn2
  simp only [List.map_cons, List.map_nil, List.mem_singleton] at hn2
  obtain ⟨q, hq, rfl⟩ := List.mem_map.mp hn
  exact hfresh q hq hn2

/-- The uniqueness of `_id` within each collection is an invariant of the
request step. -/
theorem handle_preserves_WF (ctx : Ctx) (env : Env) (db : Db) (req : Request)
    (hwf : db.WF) : (handle ctx env db req).db.WF := by
  cases req with
  | getHome => exact hwf
  | getAllProducts => exact hwf
  | getProductById id =>
    simp only [handle, getProductById]
    split <;> exact hwf
  | postProductById id body =>
    simp only [handle, postProductById]
    split
    · exact hwf
    · split <;> exact hwf
  | postGetUser body =>
    simp only [handle, postGetUser]
    split
    · split
      · split <;> exact hwf
      · exact hwf
    · exact hwf
  | postUsers body =>
    simp only [handle, postUsers]
    split
    · exact hwf
    · split
      · split
        · rename_i us hs
          obtain ⟨hus, hfresh⟩ := saveUser_ok hs
          subst hus
          exact ⟨hwf.1, nodup_ids_append _ _ _ hwf.2 hfresh⟩
        · exact hwf
        · exact hwf
      · exact hwf
  | postProduct body =>
    simp only [handle, postProduct]
    split
    · rename_i ps hs
      obtain ⟨hps, hfresh⟩ := saveProduct_ok hs
      subst hps
      exact ⟨nodup_ids_append _ _ _ hwf.1 hfresh, hwf.2⟩
    · exact hwf
    · exact hwf
  | patchProductById id body =>
    simp only [handle, patchProductById]
    cases id with
    | none => exact hwf
    | some i =>
      simp only [findById, onQueryError]
      cases hl : lookupProduct db.products i with
      | none => exact hwf
      | some r =>
        simp only [updateOne, hl]
        split
        · exact ⟨by
            show ((setFirst i body.name body.price db.products).map (·._id)).Nodup
            rw [setFirst_ids]; exact hwf.1, hwf.2⟩
        · exact hwf
  | deleteProductById id body =>
    simp only [handle, deleteProductById]
    cases id with
    | none => exact hwf
    | some i =>
      simp only [findById, onQueryError]
      split
      · exact hwf
      · split
        · exact ⟨((deleteFirst_sublist i db.products).map _).nodup hwf.1, hwf.2⟩
        · exact hwf

end MongoDBServer
